import Mathlib

/-!
Verification of the react-storex cache/fetch coordination core.

The development shallowly embeds the store implementation (the `Store` class
of the TypeScript source: `retryFetch`, `fetchData`, `setState`, `clearCache`,
`registerAPI`) together with the local mutation helpers of the `useStore` hook
(`editItem`, `deleteItem`).  JavaScript values that flow through the store are
modelled by `Val` (records are association lists of primitive fields, which is
what every store operation and every claim manipulates).  Asynchronous fetch
handlers are modelled as oracles mapping the invocation index to an outcome
(`none` models a rejected promise, `some v` a resolution with `v`); time is an
explicit `now : Int` argument, mirroring the `Date.now()` calls of the source.
Listener broadcasts are counted (`notifies`) instead of modelling the opaque
callback set.
-/

namespace ReactStorex

/-- JS primitive value.  `pnull` models both `null` and `undefined` (the two
null-equivalents of the source, which the code never distinguishes). -/
inductive Prim where
  | pnull
  | pbool (b : Bool)
  | pnum (n : Int)
  | pstr (s : String)
deriving DecidableEq, Repr

/-- JS truthiness of a primitive (`if (x)` in the source). -/
def Prim.truthy : Prim → Bool
  | Prim.pnull => false
  | Prim.pbool b => b
  | Prim.pnum n => n != 0
  | Prim.pstr s => s != ""

/-- JS `String(x)` coercion of a primitive. -/
def Prim.toStringJS : Prim → String
  | Prim.pnull => "null"
  | Prim.pbool b => if b then "true" else "false"
  | Prim.pnum n => toString n
  | Prim.pstr s => s

/-- A JS record (plain object): an association list of primitive fields. -/
abbrev Record := List (String × Prim)

/-- Field access `r[k]` on a record; `none` models `undefined`. -/
def lookupField (r : Record) (k : String) : Option Prim :=
  (r.find? (fun kv => kv.1 == k)).map (fun kv => kv.2)

/-- JS `String(r[k])`: a missing field stringifies to `"undefined"`. -/
def fieldStringJS (r : Record) (k : String) : String :=
  match lookupField r k with
  | none => "undefined"
  | some p => p.toStringJS

/-- JS shallow merge `{...item, ...updated}`: fields of `item` keep their
position but are overwritten by same-named fields of `updated`; fields of
`updated` absent from `item` are appended. -/
def mergeRecord (item updated : Record) : Record :=
  item.map (fun kv => (kv.1, (lookupField updated kv.1).getD kv.2)) ++
    updated.filter (fun kv => (lookupField item kv.1).isNone)

/-- A JS value held in the store: a primitive, or an ordered sequence of
records (the shape every claim manipulates). -/
inductive Val where
  | vprim (p : Prim)
  | varr (records : List Record)
deriving DecidableEq, Repr

/-- The null-equivalent returned by the store on failure or absence. -/
def Val.null : Val := Val.vprim Prim.pnull

/-- JS truthiness of a value (`if (data)` in `fetchData`); arrays, empty or
not, are truthy in JS. -/
def Val.truthy : Val → Bool
  | Val.vprim p => p.truthy
  | Val.varr _ => true

/-- Outcome of the `retryFetch` wrapper: a resolved value, a propagated
rejection of the wrapped function (`throw error` when the attempt count
reaches `retries`), or the trailing `throw new Error("Unexpected error in
retryFetch")` that the loop reaches when it never executes. -/
inductive RetryResult where
  | success (v : Val)
  | failure
  | internalError
deriving DecidableEq, Repr

/-- Loop body of `retryFetch`.  The source loop is
`while (attempts < retries)`; here `remaining` is `retries - attempts`, so
the loop guard becomes `remaining > 0` and the recursion is structural.
`fn i` is the outcome of the (i+1)-th call of the wrapped function.  Returns
the outcome, the number of invocations of `fn` made, and the list of backoff
delays awaited (in order).  On a caught failure the source increments
`attempts`, throws if `attempts === retries` (i.e. `remaining = 1`), and
otherwise awaits `delay * 2 ^ attempts` with the incremented counter. -/
def retryGo (fn : Nat → Option Val) (delay : Nat) : Nat → Nat → RetryResult × Nat × List Nat
  | _, 0 => (RetryResult.internalError, 0, [])
  | attempts, r + 1 =>
    match fn attempts with
    | some v => (RetryResult.success v, 1, [])
    | none =>
      if r = 0 then (RetryResult.failure, 1, [])
      else
        let rest := retryGo fn delay (attempts + 1) r
        (rest.1, rest.2.1 + 1, delay * 2 ^ (attempts + 1) :: rest.2.2)

/-- `retryFetch(fetchFunction, retries, delay)` of the source (the source
defaults are `retries = 3`, `delay = 1000`, which `fetchData` always uses). -/
def retryFetch (fn : Nat → Option Val) (retries : Nat) (delay : Nat) :
    RetryResult × Nat × List Nat :=
  retryGo fn delay 0 retries

theorem retryGo_allFail (fn : Nat → Option Val) (delay : Nat)
    (hfail : ∀ i, fn i = none) :
    ∀ remaining attempts, 1 ≤ remaining →
      (retryGo fn delay attempts remaining).1 = RetryResult.failure ∧
      (retryGo fn delay attempts remaining).2.1 = remaining := by
  intro remaining
  induction remaining with
  | zero => intro attempts h; omega
  | succ r ih =>
    intro attempts _
    by_cases hr : r = 0
    · subst hr; simp [retryGo, hfail]
    · have := ih (attempts + 1) (by omega)
      simp [retryGo, hfail, hr, this.1, this.2]

theorem retryGo_success (fn : Nat → Option Val) (delay : Nat) (v : Val) :
    ∀ (j attempts remaining : Nat), j < remaining →
      (∀ i, i < j → fn (attempts + i) = none) → fn (attempts + j) = some v →
      (retryGo fn delay attempts remaining).1 = RetryResult.success v ∧
      (retryGo fn delay attempts remaining).2.1 = j + 1 := by
  intro j
  induction j with
  | zero =>
    intro attempts remaining hlt hfail hsucc
    match remaining, hlt with
    | r + 1, _ =>
      have h0 : fn attempts = some v := by simpa using hsucc
      simp [retryGo, h0]
  | succ j ih =>
    intro attempts remaining hlt hfail hsucc
    match remaining, hlt with
    | r + 1, _ =>
      have h0 : fn attempts = none := by simpa using hfail 0 (by omega)
      have hr : ¬ r = 0 := by omega
      have hfail' : ∀ i, i < j → fn (attempts + 1 + i) = none := by
        intro i hi
        have := hfail (i + 1) (by omega)
        rwa [show attempts + (i + 1) = attempts + 1 + i by omega] at this
      have hsucc' : fn (attempts + 1 + j) = some v := by
        rwa [show attempts + 1 + j = attempts + (j + 1) by omega]
      have := ih (attempts + 1) r (by omega) hfail' hsucc'
      simp [retryGo, h0, hr, this.1, this.2]

theorem retryGo_delays (fn : Nat → Option Val) (delay : Nat) :
    ∀ (remaining attempts j : Nat) (d : Nat),
      ((retryGo fn delay attempts remaining).2.2)[j]? = some d →
      d = delay * 2 ^ (attempts + j + 1) := by
  intro remaining
  induction remaining with
  | zero => intro attempts j d hd; simp [retryGo] at hd
  | succ r ih =>
    intro attempts j d hd
    rcases hf : fn attempts with _ | v
    · by_cases hr : r = 0
      · subst hr; simp [retryGo, hf] at hd
      · simp only [retryGo, hf, hr, if_false] at hd
        match j, hd with
        | 0, hd =>
          simp at hd
          show d = delay * 2 ^ (attempts + 1)
          omega
        | j + 1, hd =>
          simp at hd
          have hrec := ih (attempts + 1) j d hd
          have hexp : attempts + 1 + j + 1 = attempts + (j + 1) + 1 := by omega
          rw [hrec, hexp]
    · simp [retryGo, hf] at hd

theorem retryGo_invocations_pos (fn : Nat → Option Val) (delay : Nat) :
    ∀ (remaining attempts : Nat), 1 ≤ remaining →
      1 ≤ (retryGo fn delay attempts remaining).2.1 := by
  intro remaining attempts h
  match remaining, h with
  | r + 1, _ =>
    rcases hf : fn attempts with _ | v
    · by_cases hr : r = 0
      · subst hr; simp [retryGo, hf]
      · simp [retryGo, hf, hr]
    · simp [retryGo, hf]

/-- Store keys are strings. -/
abbrev Key := String

/-- Pointwise update of a key-indexed map at one key. -/
def updateMap {α : Type} (f : Key → α) (k : Key) (v : α) : Key → α :=
  fun k' => if k' = k then v else f k'

theorem updateMap_same {α : Type} (f : Key → α) (k : Key) (v : α) :
    updateMap f k v k = v := by
  simp [updateMap]

theorem updateMap_other {α : Type} (f : Key → α) (k : Key) (v : α) (k' : Key)
    (h : ¬ k' = k) : updateMap f k v k' = f k' := by
  simp [updateMap, h]

/-- The `Store` class.  `state` is the key-to-value mapping, `cache` and
`cacheExpiration` the two cache `Map`s, and `apiHandlers` keeps, per key, the
registered `cacheDuration` (the injected async `fetchFunction` itself is
environment input and is supplied per call as an outcome oracle).
`fetchedCached` and `editedLocally` are ghost history fields used only to
state invariants: `fetchedCached k` records that `k` has completed at least
one successful fetch with `keepCache` true, `editedLocally k` that `k` was
the target of a successful local `editItem`. -/
structure Store where
  state : Key → Option Val
  cache : Key → Option Val
  cacheExpiration : Key → Option Int
  apiHandlers : Key → Option Int
  fetchedCached : Key → Bool
  editedLocally : Key → Bool

/-- `new Store(initialState)` (equivalently `createStore(initialState)`):
empty listeners, cache, handler registry and expiration map. -/
def Store.init (st : Key → Option Val) : Store :=
  { state := st
    cache := fun _ => none
    cacheExpiration := fun _ => none
    apiHandlers := fun _ => none
    fetchedCached := fun _ => false
    editedLocally := fun _ => false }

/-- `registerAPI(key, fetchFunction, cacheDuration)`: stores/overwrites the
handler entry for `key`.  The `typeof fetchFunction !== "function"` guard of
the source cannot fire in the embedding (functions are the only inhabitants
of the oracle type), so registration always succeeds here. -/
def Store.registerAPI (s : Store) (k : Key) (dur : Int) : Store :=
  { s with apiHandlers := updateMap s.apiHandlers k (some dur) }

/-- `setState({ [k]: v })`: shallow-merges the single-key patch into `state`
and notifies the listeners.  The second component counts broadcasts (always
one: `setState` unconditionally calls `notifyListeners`). -/
def Store.setStateKV (s : Store) (k : Key) (v : Val) : Store × Nat :=
  ({ s with state := updateMap s.state k (some v) }, 1)

/-- `clearCache(key)` with a key: deletes that key from both cache maps. -/
def Store.clearCacheKey (s : Store) (k : Key) : Store :=
  { s with cache := updateMap s.cache k none
           cacheExpiration := updateMap s.cacheExpiration k none }

/-- `clearCache()` with no key: wipes both cache maps. -/
def Store.clearCacheAll (s : Store) : Store :=
  { s with cache := fun _ => none
           cacheExpiration := fun _ => none }

/-- `this.apiHandlers[key]?.cacheDuration || 0` of the freshness check: the
registered lifetime, or `0` when no handler is registered (`x || 0` agrees
with `x` at every registered integer duration, `0` included). -/
def Store.lifetimeOf (s : Store) (k : Key) : Int :=
  (s.apiHandlers k).getD 0

/-- The cache-hit condition of `fetchData` (lines 127-132 of the source):
`this.cache.has(key) && cacheExpirationTime !== undefined &&
now - cacheExpirationTime <= (this.apiHandlers[key]?.cacheDuration || 0)`. -/
def Store.cacheFresh (s : Store) (k : Key) (now : Int) : Bool :=
  (s.cache k).isSome &&
    match s.cacheExpiration k with
    | some t => decide (now - t ≤ s.lifetimeOf k)
    | none => false

/-- HTTP method argument of `fetchData`. -/
inductive Method where
  | GET
  | POST
  | PUT
  | DELETE
deriving DecidableEq, Repr

/-- The argument `fetchData` passes to the handler: the payload for
`POST`/`PUT`/`DELETE`, the urlPath otherwise. -/
def fetchArg (method : Method) (payload urlPath : Val) : Val :=
  if method = Method.POST ∨ method = Method.PUT ∨ method = Method.DELETE then
    payload
  else urlPath

/-- Observable outcome of one `fetchData` call: the returned value, the store
after the call, how many times the registered handler was invoked, how many
listener broadcasts happened, the backoff delays awaited, and whether the
value was served from the fresh cache (the early-return branch). -/
structure FetchResult where
  value : Val
  store : Store
  invocations : Nat
  notifies : Nat
  delays : List Nat
  cacheHit : Bool

/-- The success path of `fetchData` for truthy `data` (lines 152-158): when
`keepCache` is set, write `cache[key] = data` and `cacheExpiration[key] = now`
(the ghost `fetchedCached` flag is raised alongside), then
`setState({ [key]: data })`. -/
def Store.applyFetchSuccess (s : Store) (key : Key) (data : Val)
    (keepCache : Bool) (now : Int) : Store :=
  let s1 :=
    if keepCache then
      { s with cache := updateMap s.cache key (some data)
               cacheExpiration := updateMap s.cacheExpiration key (some now)
               fetchedCached := updateMap s.fetchedCached key true }
    else s
  { s1 with state := updateMap s1.state key (some data) }

/-- The `try`/`catch` tail of `fetchData` applied to the outcome of
`retryFetch`: truthy data is cached (if requested) and written to state with
one broadcast; falsy data is returned untouched with no mutation; a caught
failure (either a propagated handler error or the internal `retryFetch`
error) logs and returns `null`. -/
def Store.fetchRespond (s : Store) (key : Key) (keepCache : Bool) (now : Int)
    (r : RetryResult × Nat × List Nat) : FetchResult :=
  match r.1 with
  | RetryResult.success data =>
    if data.truthy = true then
      { value := data
        store := s.applyFetchSuccess key data keepCache now
        invocations := r.2.1
        notifies := 1
        delays := r.2.2
        cacheHit := false }
    else
      { value := data
        store := s
        invocations := r.2.1
        notifies := 0
        delays := r.2.2
        cacheHit := false }
  | RetryResult.failure =>
    { value := Val.null
      store := s
      invocations := r.2.1
      notifies := 0
      delays := r.2.2
      cacheHit := false }
  | RetryResult.internalError =>
    { value := Val.null
      store := s
      invocations := r.2.1
      notifies := 0
      delays := r.2.2
      cacheHit := false }

/-- `fetchData(key, method, payload, urlPath, keepCache)`.  `now` is the
`Date.now()` reading at the start of the call and `fn` is the outcome oracle
of the registered handler: `fn arg i` is what the `(i+1)`-th invocation of
`fetchFunction(arg)` during this call would do (`none` rejects, `some v`
resolves with `v`).  A `GET` whose cache is fresh returns the cached value at
once; then a missing handler logs and returns `null`; otherwise the handler
runs through `retryFetch` with its source defaults `(3, 1000)`. -/
def Store.fetchData (s : Store) (key : Key) (method : Method) (payload : Val)
    (urlPath : Val) (keepCache : Bool) (now : Int)
    (fn : Val → Nat → Option Val) : FetchResult :=
  if method = Method.GET ∧ s.cacheFresh key now = true then
    { value := (s.cache key).getD Val.null
      store := s
      invocations := 0
      notifies := 0
      delays := []
      cacheHit := true }
  else if (s.apiHandlers key).isSome = false then
    { value := Val.null
      store := s
      invocations := 0
      notifies := 0
      delays := []
      cacheHit := false }
  else
    s.fetchRespond key keepCache now
      (retryFetch (fn (fetchArg method payload urlPath)) 3 1000)

/-- Result of the `editItem` helper of the hook: the `{status, message}`
object, the store afterwards, and the broadcast count. -/
structure EditResult where
  status : Bool
  message : String
  store : Store
  notifies : Nat

/-- `editItem(editItemId, updatedFields)` of the `useStore` hook, for the
hook's `key`/`idKey`.  Requires `store.state[key]` to be an array (any other
value, or a missing one, takes the `status:false` early return); maps over
the records, shallow-merging those whose stringified `idKey` field equals the
stringified id; then `setState({ [key]: updatedItems })` (one broadcast) and
`store.cache.set(key, updatedItems)` — note `cacheExpiration` is untouched.
The surrounding `try`/`catch` of the source cannot fire in the embedding
(every step here is total). -/
def Store.editItem (s : Store) (key : Key) (idKey : String) (tid : Prim)
    (updatedFields : Record) : EditResult :=
  match s.state key with
  | some (Val.varr items) =>
    let updatedItems := items.map (fun item =>
      if fieldStringJS item idKey = tid.toStringJS then
        mergeRecord item updatedFields
      else item)
    { status := true
      message := "Item edited successfully"
      store :=
        { s with state := updateMap s.state key (some (Val.varr updatedItems))
                 cache := updateMap s.cache key (some (Val.varr updatedItems))
                 editedLocally := updateMap s.editedLocally key true }
      notifies := 1 }
  | _ =>
    { status := false
      message := "No valid array found for key: " ++ key
      store := s
      notifies := 0 }

/-- `deleteItem(deleteItemId)` of the `useStore` hook: no-op on a falsy id;
otherwise filters the current array (an empty array replaces a non-array
value) and `setState`s the result with one broadcast. -/
def Store.deleteItem (s : Store) (key : Key) (idKey : String) (tid : Prim) :
    Store × Nat :=
  if tid.truthy = false then (s, 0)
  else
    let updatedData : List Record :=
      match s.state key with
      | some (Val.varr items) =>
        items.filter (fun item => fieldStringJS item idKey != tid.toStringJS)
      | _ => []
    s.setStateKV key (Val.varr updatedData)

/-- Store states reachable from a freshly constructed store through the
operations the library exposes: registration, `setState`, `clearCache` (per
key and global), `fetchData`, and the hook's local `editItem`/`deleteItem`. -/
inductive Reachable : Store → Prop where
  | init (st : Key → Option Val) : Reachable (Store.init st)
  | register (s : Store) (k : Key) (dur : Int) :
      Reachable s → Reachable (s.registerAPI k dur)
  | set (s : Store) (k : Key) (v : Val) :
      Reachable s → Reachable (s.setStateKV k v).1
  | clearKey (s : Store) (k : Key) :
      Reachable s → Reachable (s.clearCacheKey k)
  | clearAll (s : Store) :
      Reachable s → Reachable s.clearCacheAll
  | fetch (s : Store) (key : Key) (method : Method) (payload urlPath : Val)
      (keepCache : Bool) (now : Int) (fn : Val → Nat → Option Val) :
      Reachable s →
      Reachable (s.fetchData key method payload urlPath keepCache now fn).store
  | edit (s : Store) (key : Key) (idKey : String) (tid : Prim)
      (updatedFields : Record) :
      Reachable s → Reachable (s.editItem key idKey tid updatedFields).store
  | del (s : Store) (key : Key) (idKey : String) (tid : Prim) :
      Reachable s → Reachable (s.deleteItem key idKey tid).1

theorem fetchRespond_store_cases (s : Store) (key : Key) (keepCache : Bool)
    (now : Int) (r : RetryResult × Nat × List Nat) :
    (s.fetchRespond key keepCache now r).store = s ∨
    ∃ data, (s.fetchRespond key keepCache now r).store =
      s.applyFetchSuccess key data keepCache now := by
  obtain ⟨r1, n, ds⟩ := r
  cases r1 with
  | success data =>
    by_cases ht : data.truthy = true
    · exact Or.inr ⟨data, by simp [Store.fetchRespond, ht]⟩
    · exact Or.inl (by simp [Store.fetchRespond, ht])
  | failure => exact Or.inl rfl
  | internalError => exact Or.inl rfl

theorem fetchData_store_cases (s : Store) (key : Key) (method : Method)
    (payload urlPath : Val) (keepCache : Bool) (now : Int)
    (fn : Val → Nat → Option Val) :
    (s.fetchData key method payload urlPath keepCache now fn).store = s ∨
    ((s.apiHandlers key).isSome = true ∧
      ∃ data, (s.fetchData key method payload urlPath keepCache now fn).store =
        s.applyFetchSuccess key data keepCache now) := by
  unfold Store.fetchData
  split
  · exact Or.inl rfl
  · split
    · exact Or.inl rfl
    · rename_i hH
      rcases fetchRespond_store_cases s key keepCache now
          (retryFetch (fn (fetchArg method payload urlPath)) 3 1000) with hc | ⟨data, hc⟩
      · exact Or.inl hc
      · refine Or.inr ⟨?_, data, hc⟩
        cases hs : (s.apiHandlers key).isSome
        · exact absurd hs hH
        · rfl

theorem applyFetchSuccess_cache (s : Store) (key : Key) (data : Val)
    (keepCache : Bool) (now : Int) :
    (s.applyFetchSuccess key data keepCache now).cache =
      if keepCache then updateMap s.cache key (some data) else s.cache := by
  cases keepCache <;> simp [Store.applyFetchSuccess]

theorem applyFetchSuccess_cacheExpiration (s : Store) (key : Key) (data : Val)
    (keepCache : Bool) (now : Int) :
    (s.applyFetchSuccess key data keepCache now).cacheExpiration =
      if keepCache then updateMap s.cacheExpiration key (some now)
      else s.cacheExpiration := by
  cases keepCache <;> simp [Store.applyFetchSuccess]

theorem applyFetchSuccess_fetchedCached (s : Store) (key : Key) (data : Val)
    (keepCache : Bool) (now : Int) :
    (s.applyFetchSuccess key data keepCache now).fetchedCached =
      if keepCache then updateMap s.fetchedCached key true
      else s.fetchedCached := by
  cases keepCache <;> simp [Store.applyFetchSuccess]

theorem applyFetchSuccess_apiHandlers (s : Store) (key : Key) (data : Val)
    (keepCache : Bool) (now : Int) :
    (s.applyFetchSuccess key data keepCache now).apiHandlers = s.apiHandlers := by
  cases keepCache <;> simp [Store.applyFetchSuccess]

theorem applyFetchSuccess_editedLocally (s : Store) (key : Key) (data : Val)
    (keepCache : Bool) (now : Int) :
    (s.applyFetchSuccess key data keepCache now).editedLocally =
      s.editedLocally := by
  cases keepCache <;> simp [Store.applyFetchSuccess]

theorem editItem_store_cacheExpiration (s : Store) (key : Key) (idKey : String)
    (tid : Prim) (updatedFields : Record) :
    (s.editItem key idKey tid updatedFields).store.cacheExpiration =
      s.cacheExpiration := by
  unfold Store.editItem
  split <;> rfl

theorem editItem_store_fetchedCached (s : Store) (key : Key) (idKey : String)
    (tid : Prim) (updatedFields : Record) :
    (s.editItem key idKey tid updatedFields).store.fetchedCached =
      s.fetchedCached := by
  unfold Store.editItem
  split <;> rfl

theorem editItem_store_apiHandlers (s : Store) (key : Key) (idKey : String)
    (tid : Prim) (updatedFields : Record) :
    (s.editItem key idKey tid updatedFields).store.apiHandlers =
      s.apiHandlers := by
  unfold Store.editItem
  split <;> rfl

theorem editItem_store_cases (s : Store) (key : Key) (idKey : String)
    (tid : Prim) (updatedFields : Record) :
    (s.editItem key idKey tid updatedFields).store = s ∨
    ∃ v, (s.editItem key idKey tid updatedFields).store =
      { s with state := updateMap s.state key (some v)
               cache := updateMap s.cache key (some v)
               editedLocally := updateMap s.editedLocally key true } := by
  unfold Store.editItem
  split
  · exact Or.inr ⟨_, rfl⟩
  · exact Or.inl rfl

theorem deleteItem_store_fields (s : Store) (key : Key) (idKey : String)
    (tid : Prim) :
    (s.deleteItem key idKey tid).1.cache = s.cache ∧
    (s.deleteItem key idKey tid).1.cacheExpiration = s.cacheExpiration ∧
    (s.deleteItem key idKey tid).1.apiHandlers = s.apiHandlers ∧
    (s.deleteItem key idKey tid).1.fetchedCached = s.fetchedCached ∧
    (s.deleteItem key idKey tid).1.editedLocally = s.editedLocally := by
  unfold Store.deleteItem Store.setStateKV
  split <;> exact ⟨rfl, rfl, rfl, rfl, rfl⟩

/-- History invariant: a cache expiration timestamp exists only for keys that
have completed at least one successful fetch with caching enabled. -/
theorem reachable_expiration_fetched (s : Store) (h : Reachable s) :
    ∀ k, (s.cacheExpiration k).isSome = true → s.fetchedCached k = true := by
  induction h with
  | init st =>
    intro k hk
    simp [Store.init] at hk
  | register s0 k0 dur _ ih => exact ih
  | set s0 k0 v _ ih => exact ih
  | clearKey s0 k0 _ ih =>
    intro k hk
    by_cases hkk : k = k0
    · subst hkk
      simp [Store.clearCacheKey, updateMap_same] at hk
    · have he : (s0.clearCacheKey k0).cacheExpiration k = s0.cacheExpiration k :=
        updateMap_other _ _ _ _ hkk
      rw [he] at hk
      exact ih k hk
  | clearAll s0 _ ih =>
    intro k hk
    simp [Store.clearCacheAll] at hk
  | fetch s0 key method payload urlPath keepCache now fn _ ih =>
    intro k hk
    rcases fetchData_store_cases s0 key method payload urlPath keepCache now fn
      with hc | ⟨hH, data, hc⟩
    · rw [hc] at hk ⊢
      exact ih k hk
    · rw [hc] at hk ⊢
      rw [applyFetchSuccess_cacheExpiration] at hk
      rw [applyFetchSuccess_fetchedCached]
      by_cases hkc : keepCache = true
      · rw [if_pos hkc] at hk
        rw [if_pos hkc]
        by_cases hkk : k = key
        · subst hkk
          exact updateMap_same _ _ _
        · rw [updateMap_other _ _ _ _ hkk] at hk
          rw [updateMap_other _ _ _ _ hkk]
          exact ih k hk
      · rw [if_neg hkc] at hk
        rw [if_neg hkc]
        exact ih k hk
  | edit s0 key idKey tid updatedFields _ ih =>
    intro k hk
    rw [editItem_store_cacheExpiration] at hk
    rw [editItem_store_fetchedCached]
    exact ih k hk
  | del s0 key idKey tid _ ih =>
    intro k hk
    rw [(deleteItem_store_fields s0 key idKey tid).2.1] at hk
    rw [(deleteItem_store_fields s0 key idKey tid).2.2.2.1]
    exact ih k hk

/-- History invariant: a cache expiration timestamp exists only for keys that
currently have a registered handler (handlers are never unregistered, and the
timestamp is only written on the fetch path, which requires one). -/
theorem reachable_expiration_handler (s : Store) (h : Reachable s) :
    ∀ k, (s.cacheExpiration k).isSome = true →
      (s.apiHandlers k).isSome = true := by
  induction h with
  | init st =>
    intro k hk
    simp [Store.init] at hk
  | register s0 k0 dur _ ih =>
    intro k hk
    by_cases hkk : k = k0
    · subst hkk
      simp [Store.registerAPI, updateMap_same]
    · have ha : (s0.registerAPI k0 dur).apiHandlers k = s0.apiHandlers k :=
        updateMap_other _ _ _ _ hkk
      rw [ha]
      exact ih k hk
  | set s0 k0 v _ ih => exact ih
  | clearKey s0 k0 _ ih =>
    intro k hk
    by_cases hkk : k = k0
    · subst hkk
      simp [Store.clearCacheKey, updateMap_same] at hk
    · have he : (s0.clearCacheKey k0).cacheExpiration k = s0.cacheExpiration k :=
        updateMap_other _ _ _ _ hkk
      rw [he] at hk
      exact ih k hk
  | clearAll s0 _ ih =>
    intro k hk
    simp [Store.clearCacheAll] at hk
  | fetch s0 key method payload urlPath keepCache now fn _ ih =>
    intro k hk
    rcases fetchData_store_cases s0 key method payload urlPath keepCache now fn
      with hc | ⟨hH, data, hc⟩
    · rw [hc] at hk ⊢
      exact ih k hk
    · rw [hc] at hk ⊢
      rw [applyFetchSuccess_cacheExpiration] at hk
      rw [applyFetchSuccess_apiHandlers]
      by_cases hkc : keepCache = true
      · rw [if_pos hkc] at hk
        by_cases hkk : k = key
        · subst hkk
          exact hH
        · rw [updateMap_other _ _ _ _ hkk] at hk
          exact ih k hk
      · rw [if_neg hkc] at hk
        exact ih k hk
  | edit s0 key idKey tid updatedFields _ ih =>
    intro k hk
    rw [editItem_store_cacheExpiration] at hk
    rw [editItem_store_apiHandlers]
    exact ih k hk
  | del s0 key idKey tid _ ih =>
    intro k hk
    rw [(deleteItem_store_fields s0 key idKey tid).2.1] at hk
    rw [(deleteItem_store_fields s0 key idKey tid).2.2.1]
    exact ih k hk

/-- History invariant: a cache value entry exists only for keys that have
completed a successful cached fetch or been the target of a successful local
edit. -/
theorem reachable_cache_origin (s : Store) (h : Reachable s) :
    ∀ k, (s.cache k).isSome = true →
      s.fetchedCached k = true ∨ s.editedLocally k = true := by
  induction h with
  | init st =>
    intro k hk
    simp [Store.init] at hk
  | register s0 k0 dur _ ih => exact ih
  | set s0 k0 v _ ih => exact ih
  | clearKey s0 k0 _ ih =>
    intro k hk
    by_cases hkk : k = k0
    · subst hkk
      simp [Store.clearCacheKey, updateMap_same] at hk
    · have he : (s0.clearCacheKey k0).cache k = s0.cache k :=
        updateMap_other _ _ _ _ hkk
      rw [he] at hk
      exact ih k hk
  | clearAll s0 _ ih =>
    intro k hk
    simp [Store.clearCacheAll] at hk
  | fetch s0 key method payload urlPath keepCache now fn _ ih =>
    intro k hk
    rcases fetchData_store_cases s0 key method payload urlPath keepCache now fn
      with hc | ⟨hH, data, hc⟩
    · rw [hc] at hk ⊢
      exact ih k hk
    · rw [hc] at hk ⊢
      rw [applyFetchSuccess_cache] at hk
      rw [applyFetchSuccess_fetchedCached, applyFetchSuccess_editedLocally]
      by_cases hkc : keepCache = true
      · rw [if_pos hkc] at hk
        rw [if_pos hkc]
        by_cases hkk : k = key
        · subst hkk
          exact Or.inl (updateMap_same _ _ _)
        · rw [updateMap_other _ _ _ _ hkk] at hk
          rw [updateMap_other _ _ _ _ hkk]
          exact ih k hk
      · rw [if_neg hkc] at hk
        rw [if_neg hkc]
        exact ih k hk
  | edit s0 key idKey tid updatedFields _ ih =>
    intro k hk
    rcases editItem_store_cases s0 key idKey tid updatedFields with hc | ⟨v, hc⟩
    · rw [hc] at hk ⊢
      exact ih k hk
    · rw [hc] at hk ⊢
      dsimp only at hk ⊢
      by_cases hkk : k = key
      · subst hkk
        exact Or.inr (updateMap_same _ _ _)
      · rw [updateMap_other _ _ _ _ hkk] at hk
        rw [updateMap_other _ _ _ _ hkk]
        exact ih k hk
  | del s0 key idKey tid _ ih =>
    intro k hk
    rw [(deleteItem_store_fields s0 key idKey tid).1] at hk
    rw [(deleteItem_store_fields s0 key idKey tid).2.2.2.1,
        (deleteItem_store_fields s0 key idKey tid).2.2.2.2]
    exact ih k hk

theorem fetchData_hit (s : Store) (key : Key) (method : Method)
    (payload urlPath : Val) (keepCache : Bool) (now : Int)
    (fn : Val → Nat → Option Val)
    (hm : method = Method.GET) (hf : s.cacheFresh key now = true) :
    s.fetchData key method payload urlPath keepCache now fn =
      { value := (s.cache key).getD Val.null, store := s, invocations := 0,
        notifies := 0, delays := [], cacheHit := true } := by
  unfold Store.fetchData
  rw [if_pos ⟨hm, hf⟩]

theorem fetchData_miss (s : Store) (key : Key) (method : Method)
    (payload urlPath : Val) (keepCache : Bool) (now : Int)
    (fn : Val → Nat → Option Val)
    (hmiss : ¬ (method = Method.GET ∧ s.cacheFresh key now = true))
    (hH : (s.apiHandlers key).isSome = true) :
    s.fetchData key method payload urlPath keepCache now fn =
      s.fetchRespond key keepCache now
        (retryFetch (fn (fetchArg method payload urlPath)) 3 1000) := by
  unfold Store.fetchData
  rw [if_neg hmiss, if_neg (by simp [hH])]

theorem fetchData_noHandler (s : Store) (key : Key) (method : Method)
    (payload urlPath : Val) (keepCache : Bool) (now : Int)
    (fn : Val → Nat → Option Val)
    (hmiss : ¬ (method = Method.GET ∧ s.cacheFresh key now = true))
    (hH : (s.apiHandlers key).isSome = false) :
    s.fetchData key method payload urlPath keepCache now fn =
      { value := Val.null, store := s, invocations := 0, notifies := 0,
        delays := [], cacheHit := false } := by
  unfold Store.fetchData
  rw [if_neg hmiss, if_pos hH]

theorem fetchRespond_success_truthy (s : Store) (key : Key) (keepCache : Bool)
    (now : Int) (r : RetryResult × Nat × List Nat) (data : Val)
    (h : r.1 = RetryResult.success data) (ht : data.truthy = true) :
    s.fetchRespond key keepCache now r =
      { value := data, store := s.applyFetchSuccess key data keepCache now,
        invocations := r.2.1, notifies := 1, delays := r.2.2,
        cacheHit := false } := by
  unfold Store.fetchRespond
  rw [h]
  dsimp only
  rw [if_pos ht]

theorem fetchRespond_success_falsy (s : Store) (key : Key) (keepCache : Bool)
    (now : Int) (r : RetryResult × Nat × List Nat) (data : Val)
    (h : r.1 = RetryResult.success data) (ht : data.truthy = false) :
    s.fetchRespond key keepCache now r =
      { value := data, store := s, invocations := r.2.1, notifies := 0,
        delays := r.2.2, cacheHit := false } := by
  unfold Store.fetchRespond
  rw [h]
  dsimp only
  rw [if_neg (by simp [ht])]

theorem fetchRespond_failure (s : Store) (key : Key) (keepCache : Bool)
    (now : Int) (r : RetryResult × Nat × List Nat)
    (h : r.1 = RetryResult.failure) :
    s.fetchRespond key keepCache now r =
      { value := Val.null, store := s, invocations := r.2.1, notifies := 0,
        delays := r.2.2, cacheHit := false } := by
  unfold Store.fetchRespond
  rw [h]

theorem fetchRespond_invocations (s : Store) (key : Key) (keepCache : Bool)
    (now : Int) (r : RetryResult × Nat × List Nat) :
    (s.fetchRespond key keepCache now r).invocations = r.2.1 := by
  obtain ⟨r1, n, ds⟩ := r
  cases r1 with
  | success data =>
    by_cases ht : data.truthy = true
    · simp [Store.fetchRespond, ht]
    · simp [Store.fetchRespond, ht]
  | failure => rfl
  | internalError => rfl

theorem fetchRespond_cacheHit (s : Store) (key : Key) (keepCache : Bool)
    (now : Int) (r : RetryResult × Nat × List Nat) :
    (s.fetchRespond key keepCache now r).cacheHit = false := by
  obtain ⟨r1, n, ds⟩ := r
  cases r1 with
  | success data =>
    by_cases ht : data.truthy = true
    · simp [Store.fetchRespond, ht]
    · simp [Store.fetchRespond, ht]
  | failure => rfl
  | internalError => rfl

/-- Claim C2: for every `maxAttempts >= 1` and every `N` with
`1 <= N <= maxAttempts`, a wrapped function that fails its first `N-1` calls
and succeeds on the `N`th makes the retry wrapper return the success value
after exactly `N` invocations; a wrapped function that always fails is
invoked exactly `maxAttempts` times and the failure is surfaced to the
caller. -/
theorem claim_C2_retry (fn gn : Nat → Option Val) (maxAttempts N delay : Nat)
    (v : Val)
    (hmax : 1 ≤ maxAttempts) (hN : 1 ≤ N) (hNle : N ≤ maxAttempts)
    (hfail : ∀ i, i < N - 1 → fn i = none) (hsucc : fn (N - 1) = some v)
    (hgfail : ∀ i, gn i = none) :
    ((retryFetch fn maxAttempts delay).1 = RetryResult.success v ∧
      (retryFetch fn maxAttempts delay).2.1 = N) ∧
    ((retryFetch gn maxAttempts delay).1 = RetryResult.failure ∧
      (retryFetch gn maxAttempts delay).2.1 = maxAttempts) := by
  constructor
  · have h := retryGo_success fn delay v (N - 1) 0 maxAttempts (by omega)
      (fun i hi => by simpa using hfail i hi) (by simpa using hsucc)
    refine ⟨h.1, ?_⟩
    have h2 := h.2
    unfold retryFetch
    omega
  · exact retryGo_allFail gn delay hgfail maxAttempts 0 hmax

/-- Witness for C2: a function succeeding on its first call under
`maxAttempts = 3` yields the value with one invocation; an always-failing
function is invoked exactly three times and fails. -/
theorem claim_C2_witness :
    ((retryFetch (fun _ => some (Val.vprim (Prim.pnum 7))) 3 5).1 =
        RetryResult.success (Val.vprim (Prim.pnum 7)) ∧
      (retryFetch (fun _ => some (Val.vprim (Prim.pnum 7))) 3 5).2.1 = 1) ∧
    ((retryFetch (fun _ => none) 3 5).1 = RetryResult.failure ∧
      (retryFetch (fun _ => none) 3 5).2.1 = 3) :=
  claim_C2_retry (fun _ => some (Val.vprim (Prim.pnum 7))) (fun _ => none)
    3 1 5 (Val.vprim (Prim.pnum 7)) (by omega) (by omega) (by omega)
    (fun i hi => absurd hi (by omega)) rfl (fun i => rfl)

/-- Claim C4 (refuted by the code): with `maxAttempts = 0` the source loop
guard `attempts < retries` is false at entry, so the wrapped function is
invoked zero times — not once — and the trailing
`throw new Error("Unexpected error in retryFetch")` (which the source's own
comment declares unreachable) is raised instead of a propagated function
failure.  Evaluated here at an always-failing function. -/
theorem claim_C4_zero_attempts :
    retryFetch (fun _ => none) 0 1000 = (RetryResult.internalError, 0, []) ∧
    ¬ (retryFetch (fun _ => none) 0 1000).2.1 = 1 := by
  exact ⟨rfl, by decide⟩

/-- Claim C5 counterexample: in a run with `baseDelay = 1` and an
always-failing function under `maxAttempts = 3`, the delay waited before
attempt `k = 2` is `2`, whereas the claim (`baseDelay * 2 ^ k`) demands
`1 * 2 ^ 2 = 4`. -/
theorem claim_C5_counterexample :
    ((retryFetch (fun _ => none) 3 1).2.2)[0]? = some 2 ∧
    ¬ (2 : Nat) = 1 * 2 ^ 2 := by
  exact ⟨rfl, by decide⟩

/-- Claim C5 as amended: the backoff delay the wrapper waits immediately
before making attempt `k` (for `k >= 2`; the delays list holds the delay
before attempt `j + 2` at position `j`) equals `baseDelay * 2 ^ (k - 1)`,
i.e. `baseDelay * 2 ^ m` where `m` is the 1-indexed number of the attempt
that just failed. -/
theorem claim_C5_amended (fn : Nat → Option Val) (maxAttempts delay k d : Nat)
    (hk : 2 ≤ k)
    (hd : ((retryFetch fn maxAttempts delay).2.2)[k - 2]? = some d) :
    d = delay * 2 ^ (k - 1) := by
  have h := retryGo_delays fn delay maxAttempts 0 (k - 2) d hd
  have hexp : 0 + (k - 2) + 1 = k - 1 := by omega
  rw [h, hexp]

/-- Witness for C5 (amended): with `baseDelay = 1` and three failing
attempts, the delay before attempt `2` is `1 * 2 ^ 1 = 2`. -/
theorem claim_C5_witness :
    ((retryFetch (fun _ => none) 3 1).2.2)[(2 : Nat) - 2]? = some 2 ∧
    (2 : Nat) = 1 * 2 ^ (2 - 1) :=
  ⟨rfl, claim_C5_amended (fun _ => none) 3 1 2 2 (by omega) rfl⟩

/-- A freshly constructed store with one handler registered for `"users"`
(lifetime 60000 ms), used as concrete input by several witnesses. -/
def regStore : Store := (Store.init (fun _ => none)).registerAPI "users" 60000

/-- Claim C3: if `fetchData` invokes the registered handler and the handler
fails on every retry attempt, `fetchData` returns the null-equivalent and the
store is exactly as it was before the call (in particular the state at the
key, the cache entry and its timestamp), with no broadcast. -/
theorem claim_C3_failure_atomic (s : Store) (key : Key) (L : Int)
    (method : Method) (payload urlPath : Val) (keepCache : Bool) (now : Int)
    (fn : Val → Nat → Option Val)
    (hH : s.apiHandlers key = some L)
    (hmiss : method = Method.GET → s.cacheFresh key now = false)
    (hfail : ∀ i, fn (fetchArg method payload urlPath) i = none) :
    (s.fetchData key method payload urlPath keepCache now fn).value =
      Val.null ∧
    (s.fetchData key method payload urlPath keepCache now fn).store = s ∧
    (s.fetchData key method payload urlPath keepCache now fn).store.state key =
      s.state key ∧
    (s.fetchData key method payload urlPath keepCache now fn).store.cache key =
      s.cache key ∧
    (s.fetchData key method payload urlPath keepCache now
      fn).store.cacheExpiration key = s.cacheExpiration key ∧
    (s.fetchData key method payload urlPath keepCache now fn).notifies = 0 := by
  have hmiss' : ¬ (method = Method.GET ∧ s.cacheFresh key now = true) := by
    rintro ⟨hm, hf⟩
    rw [hmiss hm] at hf
    exact Bool.noConfusion hf
  rw [fetchData_miss s key method payload urlPath keepCache now fn hmiss'
    (by simp [hH])]
  have hr : (retryFetch (fn (fetchArg method payload urlPath)) 3 1000).1 =
      RetryResult.failure :=
    (retryGo_allFail (fn (fetchArg method payload urlPath)) 1000 hfail 3 0
      (by omega)).1
  rw [fetchRespond_failure s key keepCache now _ hr]
  exact ⟨rfl, rfl, rfl, rfl, rfl, rfl⟩

/-- Witness for C3: a `GET` on the registered key with an always-failing
handler on the fresh store returns `null` and leaves the store untouched. -/
theorem claim_C3_witness :
    (regStore.fetchData "users" Method.GET Val.null Val.null true 0
      (fun _ _ => none)).value = Val.null ∧
    (regStore.fetchData "users" Method.GET Val.null Val.null true 0
      (fun _ _ => none)).store = regStore ∧
    (regStore.fetchData "users" Method.GET Val.null Val.null true 0
      (fun _ _ => none)).store.state "users" = regStore.state "users" ∧
    (regStore.fetchData "users" Method.GET Val.null Val.null true 0
      (fun _ _ => none)).store.cache "users" = regStore.cache "users" ∧
    (regStore.fetchData "users" Method.GET Val.null Val.null true 0
      (fun _ _ => none)).store.cacheExpiration "users" =
      regStore.cacheExpiration "users" ∧
    (regStore.fetchData "users" Method.GET Val.null Val.null true 0
      (fun _ _ => none)).notifies = 0 :=
  claim_C3_failure_atomic regStore "users" 60000 Method.GET Val.null Val.null
    true 0 (fun _ _ => none) rfl (fun _ => rfl) (fun _ => rfl)

/-- Claim C7: if the handler invocation succeeds but yields an empty or null
result (a JS-falsy value — `null`, `undefined`, `""`, `0` or `false`, which
is what `if (data)` tests), `fetchData` performs no cache write, no state
mutation and no broadcast, and returns that null-equivalent value itself. -/
theorem claim_C7_falsy_result (s : Store) (key : Key) (L : Int)
    (method : Method) (payload urlPath : Val) (keepCache : Bool) (now : Int)
    (fn : Val → Nat → Option Val) (v : Val)
    (hH : s.apiHandlers key = some L)
    (hmiss : method = Method.GET → s.cacheFresh key now = false)
    (hsucc : (retryFetch (fn (fetchArg method payload urlPath)) 3 1000).1 =
      RetryResult.success v)
    (hfalsy : v.truthy = false) :
    (s.fetchData key method payload urlPath keepCache now fn).value = v ∧
    v.truthy = false ∧
    (s.fetchData key method payload urlPath keepCache now fn).store = s ∧
    (s.fetchData key method payload urlPath keepCache now fn).notifies = 0 := by
  have hmiss' : ¬ (method = Method.GET ∧ s.cacheFresh key now = true) := by
    rintro ⟨hm, hf⟩
    rw [hmiss hm] at hf
    exact Bool.noConfusion hf
  rw [fetchData_miss s key method payload urlPath keepCache now fn hmiss'
    (by simp [hH])]
  rw [fetchRespond_success_falsy s key keepCache now _ v hsucc hfalsy]
  exact ⟨rfl, hfalsy, rfl, rfl⟩

/-- Witness for C7: a handler resolving with the empty string on the first
attempt leaves the fresh registered store untouched and the empty string is
returned. -/
theorem claim_C7_witness :
    (regStore.fetchData "users" Method.GET Val.null Val.null true 0
      (fun _ _ => some (Val.vprim (Prim.pstr "")))).value =
      Val.vprim (Prim.pstr "") ∧
    (Val.vprim (Prim.pstr "")).truthy = false ∧
    (regStore.fetchData "users" Method.GET Val.null Val.null true 0
      (fun _ _ => some (Val.vprim (Prim.pstr "")))).store = regStore ∧
    (regStore.fetchData "users" Method.GET Val.null Val.null true 0
      (fun _ _ => some (Val.vprim (Prim.pstr "")))).notifies = 0 :=
  claim_C7_falsy_result regStore "users" 60000 Method.GET Val.null Val.null
    true 0 (fun _ _ => some (Val.vprim (Prim.pstr "")))
    (Val.vprim (Prim.pstr "")) rfl (fun _ => rfl) rfl rfl

/-- Claim C8: in any reachable store, `fetchData` on a key with no
registered handler — for any method — returns the null-equivalent and
performs no state mutation, no cache write, no handler invocation and no
broadcast.  (Reachability matters: timestamps only ever exist for registered
keys, so the `GET` fast path cannot fire either.) -/
theorem claim_C8_no_handler (s : Store) (k : Key) (method : Method)
    (payload urlPath : Val) (keepCache : Bool) (now : Int)
    (fn : Val → Nat → Option Val)
    (hreach : Reachable s) (hH : s.apiHandlers k = none) :
    s.fetchData k method payload urlPath keepCache now fn =
      { value := Val.null, store := s, invocations := 0, notifies := 0,
        delays := [], cacheHit := false } := by
  have hE : s.cacheExpiration k = none := by
    rcases hx : s.cacheExpiration k with _ | t
    · rfl
    · have hiso := reachable_expiration_handler s hreach k (by rw [hx]; rfl)
      rw [hH] at hiso
      simp at hiso
  have hfresh : s.cacheFresh k now = false := by
    simp [Store.cacheFresh, hE]
  exact fetchData_noHandler s k method payload urlPath keepCache now fn
    (by rintro ⟨hm, hf⟩; rw [hfresh] at hf; exact Bool.noConfusion hf)
    (by rw [hH]; rfl)

/-- Witness for C8: a `GET` for an unregistered key on a freshly constructed
store returns `null` and changes nothing. -/
theorem claim_C8_witness :
    (Store.init (fun _ => none)).fetchData "users" Method.GET Val.null
      Val.null true 0 (fun _ _ => none) =
      { value := Val.null, store := Store.init (fun _ => none),
        invocations := 0, notifies := 0, delays := [], cacheHit := false } :=
  claim_C8_no_handler (Store.init (fun _ => none)) "users" Method.GET Val.null
    Val.null true 0 (fun _ _ => none) (Reachable.init (fun _ => none)) rfl

/-- Claim C1: with a handler of lifetime `L` registered for `k` and no
timestamp yet, a `GET` at `t0` whose handler resolves with a truthy value
populates the cache; a second `GET` at `t1` then (a) if `t1 - t0 <= L`
returns that cached value with no handler invocation, no store change and no
broadcast, and (b) if `t1 - t0 > L` invokes the handler again (at least
once). -/
theorem claim_C1_freshness (s : Store) (k : Key) (L t0 t1 : Int)
    (p0 u0 p1 u1 : Val) (fn0 fn1 : Val → Nat → Option Val) (v : Val)
    (s1 : Store)
    (hH : s.apiHandlers k = some L)
    (hE : s.cacheExpiration k = none)
    (hS : (retryFetch (fn0 u0) 3 1000).1 = RetryResult.success v)
    (hT : v.truthy = true)
    (hs1 : s1 = (s.fetchData k Method.GET p0 u0 true t0 fn0).store) :
    (t1 - t0 ≤ L →
      s1.fetchData k Method.GET p1 u1 true t1 fn1 =
        { value := v, store := s1, invocations := 0, notifies := 0,
          delays := [], cacheHit := true }) ∧
    (L < t1 - t0 →
      1 ≤ (s1.fetchData k Method.GET p1 u1 true t1 fn1).invocations) := by
  have hfresh0 : s.cacheFresh k t0 = false := by
    simp [Store.cacheFresh, hE]
  have hmiss0 : ¬ (Method.GET = Method.GET ∧ s.cacheFresh k t0 = true) := by
    rintro ⟨_, hf⟩
    rw [hfresh0] at hf
    exact Bool.noConfusion hf
  have hS' : (retryFetch (fn0 (fetchArg Method.GET p0 u0)) 3 1000).1 =
      RetryResult.success v := hS
  have h1 : (s.fetchData k Method.GET p0 u0 true t0 fn0).store =
      s.applyFetchSuccess k v true t0 := by
    rw [fetchData_miss s k Method.GET p0 u0 true t0 fn0 hmiss0 (by simp [hH])]
    rw [fetchRespond_success_truthy s k true t0 _ v hS' hT]
  rw [h1] at hs1
  subst hs1
  have hc : (s.applyFetchSuccess k v true t0).cache k = some v := by
    rw [applyFetchSuccess_cache, if_pos rfl]
    exact updateMap_same _ _ _
  have hexp : (s.applyFetchSuccess k v true t0).cacheExpiration k = some t0 := by
    rw [applyFetchSuccess_cacheExpiration, if_pos rfl]
    exact updateMap_same _ _ _
  have hh1 : (s.applyFetchSuccess k v true t0).apiHandlers k = some L := by
    rw [applyFetchSuccess_apiHandlers]
    exact hH
  constructor
  · intro hle
    have hf : (s.applyFetchSuccess k v true t0).cacheFresh k t1 = true := by
      unfold Store.cacheFresh Store.lifetimeOf
      rw [hc, hexp, hh1]
      simpa using hle
    rw [fetchData_hit _ k Method.GET p1 u1 true t1 fn1 rfl hf, hc]
    rfl
  · intro hgt
    have hf : (s.applyFetchSuccess k v true t0).cacheFresh k t1 = false := by
      unfold Store.cacheFresh Store.lifetimeOf
      rw [hc, hexp, hh1]
      simp
      omega
    rw [fetchData_miss _ k Method.GET p1 u1 true t1 fn1
      (by rintro ⟨_, hff⟩; rw [hf] at hff; exact Bool.noConfusion hff)
      (by simp [hh1])]
    rw [fetchRespond_invocations]
    exact retryGo_invocations_pos _ 1000 3 0 (by omega)

/-- Witness for C1: a first `GET` at time 0 caches `42` under the registered
60000 ms lifetime; a second `GET` at time 60000 is a pure cache hit, and at
time 60001 the handler runs again. -/
theorem claim_C1_witness :
    ((60000 : Int) - 0 ≤ 60000 →
      ((regStore.fetchData "users" Method.GET Val.null Val.null true 0
          (fun _ _ => some (Val.vprim (Prim.pnum 42)))).store.fetchData
        "users" Method.GET Val.null Val.null true 60000
        (fun _ _ => some (Val.vprim (Prim.pnum 43)))) =
        { value := Val.vprim (Prim.pnum 42)
          store := (regStore.fetchData "users" Method.GET Val.null Val.null
            true 0 (fun _ _ => some (Val.vprim (Prim.pnum 42)))).store
          invocations := 0
          notifies := 0
          delays := []
          cacheHit := true }) ∧
    ((60000 : Int) < 60000 - 0 →
      1 ≤ ((regStore.fetchData "users" Method.GET Val.null Val.null true 0
          (fun _ _ => some (Val.vprim (Prim.pnum 42)))).store.fetchData
        "users" Method.GET Val.null Val.null true 60000
        (fun _ _ => some (Val.vprim (Prim.pnum 43)))).invocations) :=
  claim_C1_freshness regStore "users" 60000 0 60000 Val.null Val.null
    Val.null Val.null (fun _ _ => some (Val.vprim (Prim.pnum 42)))
    (fun _ _ => some (Val.vprim (Prim.pnum 43))) (Val.vprim (Prim.pnum 42))
    ((regStore.fetchData "users" Method.GET Val.null Val.null true 0
      (fun _ _ => some (Val.vprim (Prim.pnum 42)))).store)
    rfl rfl rfl rfl rfl

/-- Claim C9: when the current state value at `key` is a sequence of records,
`editItem` replaces it with the sequence in which every record whose `idKey`
field stringifies equal to the stringified target id is shallow-merged with
the partial fields and every other record is unchanged, overwrites the
cached value for `key` with that sequence while leaving every cache
timestamp untouched, broadcasts once and returns `status := true`; when the
value at `key` is absent or not a sequence it returns `status := false` with
a message and mutates nothing (and, being total, never throws). -/
theorem claim_C9_edit_local (s : Store) (key : Key) (idKey : String)
    (tid : Prim) (updatedFields : Record) :
    (∀ items, s.state key = some (Val.varr items) →
      (s.editItem key idKey tid updatedFields).status = true ∧
      (s.editItem key idKey tid updatedFields).message =
        "Item edited successfully" ∧
      (s.editItem key idKey tid updatedFields).store.state key =
        some (Val.varr (items.map (fun item =>
          if fieldStringJS item idKey = tid.toStringJS then
            mergeRecord item updatedFields
          else item))) ∧
      (s.editItem key idKey tid updatedFields).store.cache key =
        some (Val.varr (items.map (fun item =>
          if fieldStringJS item idKey = tid.toStringJS then
            mergeRecord item updatedFields
          else item))) ∧
      (s.editItem key idKey tid updatedFields).store.cacheExpiration =
        s.cacheExpiration ∧
      (s.editItem key idKey tid updatedFields).notifies = 1) ∧
    ((∀ items, ¬ s.state key = some (Val.varr items)) →
      (s.editItem key idKey tid updatedFields).status = false ∧
      (s.editItem key idKey tid updatedFields).message =
        "No valid array found for key: " ++ key ∧
      (s.editItem key idKey tid updatedFields).store = s ∧
      (s.editItem key idKey tid updatedFields).notifies = 0) := by
  constructor
  · intro items hst
    unfold Store.editItem
    rw [hst]
    exact ⟨rfl, rfl, updateMap_same _ _ _, updateMap_same _ _ _, rfl, rfl⟩
  · intro hnot
    unfold Store.editItem
    rcases hst : s.state key with _ | val
    · exact ⟨rfl, rfl, rfl, rfl⟩
    · cases val with
      | vprim p => exact ⟨rfl, rfl, rfl, rfl⟩
      | varr items => exact absurd hst (hnot items)

/-- Concrete store for the C9 witness, holding the spec's example sequence
`[{id:5,name:"A"},{id:7,name:"B"}]` under the key `"todos"`. -/
def c9Store : Store := Store.init (fun k =>
  if k = "todos" then
    some (Val.varr [[("id", Prim.pnum 5), ("name", Prim.pstr "A")],
                    [("id", Prim.pnum 7), ("name", Prim.pstr "B")]])
  else none)

/-- Witness for C9: `editItem("todos","id",5,{name:"X"})` on
`[{id:5,name:"A"},{id:7,name:"B"}]` yields
`[{id:5,name:"X"},{id:7,name:"B"}]` in state and cache, leaves timestamps
alone, broadcasts once and reports success. -/
theorem claim_C9_witness :
    (c9Store.editItem "todos" "id" (Prim.pnum 5)
      [("name", Prim.pstr "X")]).status = true ∧
    (c9Store.editItem "todos" "id" (Prim.pnum 5)
      [("name", Prim.pstr "X")]).store.state "todos" =
      some (Val.varr [[("id", Prim.pnum 5), ("name", Prim.pstr "X")],
                      [("id", Prim.pnum 7), ("name", Prim.pstr "B")]]) ∧
    (c9Store.editItem "todos" "id" (Prim.pnum 5)
      [("name", Prim.pstr "X")]).store.cache "todos" =
      some (Val.varr [[("id", Prim.pnum 5), ("name", Prim.pstr "X")],
                      [("id", Prim.pnum 7), ("name", Prim.pstr "B")]]) ∧
    (c9Store.editItem "todos" "id" (Prim.pnum 5)
      [("name", Prim.pstr "X")]).store.cacheExpiration =
      c9Store.cacheExpiration ∧
    (c9Store.editItem "todos" "id" (Prim.pnum 5)
      [("name", Prim.pstr "X")]).notifies = 1 := by
  have h := (claim_C9_edit_local c9Store "todos" "id" (Prim.pnum 5)
      [("name", Prim.pstr "X")]).1
    [[("id", Prim.pnum 5), ("name", Prim.pstr "A")],
     [("id", Prim.pnum 7), ("name", Prim.pstr "B")]] rfl
  exact ⟨h.1, h.2.2.1, h.2.2.2.1, h.2.2.2.2.1, h.2.2.2.2.2⟩

/-- State on which the C6 counterexample runs: one array value under
`"users"`, as a `createStore` initial state would provide. -/
def c6InitState : Key → Option Val := fun k =>
  if k = "users" then
    some (Val.varr [[("id", Prim.pnum 1), ("name", Prim.pstr "A")]])
  else none

/-- The reachable store obtained by one local `editItem` on that fresh
store: no fetch has ever run, yet `editItem` has written a cache entry. -/
def c6Store : Store :=
  ((Store.init c6InitState).editItem "users" "id" (Prim.pnum 1)
    [("name", Prim.pstr "B")]).store

theorem c6Store_reachable : Reachable c6Store :=
  Reachable.edit (Store.init c6InitState) "users" "id" (Prim.pnum 1)
    [("name", Prim.pstr "B")] (Reachable.init c6InitState)

/-- Claim C6 counterexample: a reachable store (fresh store, then one local
`editItem` on an initial-state array) holds a cache entry for `"users"`
although that key has never completed any successful fetch with caching
enabled (ghost flag `fetchedCached` is false), so the claimed invariant is
not preserved by the local edit operation. -/
theorem claim_C6_counterexample :
    Reachable c6Store ∧ (c6Store.cache "users").isSome = true ∧
    c6Store.fetchedCached "users" = false :=
  ⟨c6Store_reachable, by decide, by decide⟩

/-- Claim C6 as amended: in every reachable store state, a cache entry
exists for a key only if that key has completed at least one successful
fetch with caching enabled or has been the target of a successful local
edit; every store operation preserves this weaker invariant (the local edit
operation is exactly the one that can create a cache entry without a
fetch). -/
theorem claim_C6_amended (s : Store) (h : Reachable s) (k : Key)
    (hc : (s.cache k).isSome = true) :
    s.fetchedCached k = true ∨ s.editedLocally k = true :=
  reachable_cache_origin s h k hc

/-- Witness for C6 (amended): the edited store has a cache entry for
`"users"` and indeed `"users"` was locally edited. -/
theorem claim_C6_witness :
    (c6Store.cache "users").isSome = true ∧
    (c6Store.fetchedCached "users" = true ∨
      c6Store.editedLocally "users" = true) :=
  ⟨by decide, claim_C6_amended c6Store c6Store_reachable "users" (by decide)⟩

/-- Claim C10: in a reachable store, a key that has never completed a
successful cached fetch (ghost flag `fetchedCached` false — in particular a
key whose cache value was written only by the local edit operation) carries
no fetch timestamp, and consequently `fetchData` never serves it from the
cache-hit fast path, whatever the method, payload, time or handler
behavior. -/
theorem claim_C10_no_spurious_hit (s : Store) (k : Key)
    (hreach : Reachable s) (hnf : s.fetchedCached k = false) :
    (s.cacheExpiration k).isSome = false ∧
    ∀ (method : Method) (payload urlPath : Val) (keepCache : Bool) (now : Int)
      (fn : Val → Nat → Option Val),
      (s.fetchData k method payload urlPath keepCache now fn).cacheHit =
        false := by
  have hE : (s.cacheExpiration k).isSome = false := by
    cases hx : (s.cacheExpiration k).isSome
    · rfl
    · have hfc := reachable_expiration_fetched s hreach k hx
      rw [hnf] at hfc
      exact Bool.noConfusion hfc
  refine ⟨hE, ?_⟩
  intro method payload urlPath keepCache now fn
  have hfresh : s.cacheFresh k now = false := by
    rcases hx : s.cacheExpiration k with _ | t
    · simp [Store.cacheFresh, hx]
    · rw [hx] at hE
      simp at hE
  unfold Store.fetchData
  rw [if_neg (by rintro ⟨hm, hf⟩; rw [hfresh] at hf; exact Bool.noConfusion hf)]
  split
  · rfl
  · exact fetchRespond_cacheHit _ _ _ _ _

/-- Witness for C10: the locally edited store `c6Store` has a cache value
for `"users"` but no timestamp, and a `GET` there is not served as a cache
hit. -/
theorem claim_C10_witness :
    (c6Store.cacheExpiration "users").isSome = false ∧
    ∀ (method : Method) (payload urlPath : Val) (keepCache : Bool) (now : Int)
      (fn : Val → Nat → Option Val),
      (c6Store.fetchData "users" method payload urlPath keepCache now
        fn).cacheHit = false :=
  claim_C10_no_spurious_hit c6Store "users" c6Store_reachable (by decide)

end ReactStorex
